import Mathlib

/-!
Shallow embedding of the evolution-cycle detection and event-log synthesis core
of the `daws_repository_mining` repository
(`workflow/scripts/git_analyzer.py` and `workflow/scripts/util.py`),
together with proofs settling the specification claims about it.

Conventions of the embedding:
* Python `int` epochs and counters are modelled as `Int`; indices as `Nat`.
* A Python value that may be `None` is modelled as `Option`.
* Python code that may raise is modelled in `Except PyErr`.
* Python dicts keyed by commit hash are modelled as association lists
  (`List (String × CommitRecord)`) whose order is the dict insertion order.
* `datetime.strptime(s, "%Y-%m-%dT%H:%M:%SZ")` is modelled by `parseDateZ`
  accepting the canonical zero-padded form of that format and validating
  field ranges exactly as `datetime` does; naive datetimes are interpreted
  in UTC (the code's local-time convention is a fixed timezone, modelled
  as UTC so that `strptime`/`timestamp`/`fromtimestamp` round-trip).
* Python's `sorted` (a stable sort) is modelled by `List.insertionSort`,
  which is also stable; stable sorts by the same key agree element-wise.
-/

/-- Errors a synthesis call can raise, mirroring the Python exception types
that can escape the modelled functions. -/
inductive PyErr where
  | valueError (msg : String)
  | keyError (key : String)
  | typeError
deriving DecidableEq

/-- A parsed naive `datetime` value (year-month-day hour:minute:second). -/
structure DateTime where
  year : Nat
  month : Nat
  day : Nat
  hour : Nat
  minute : Nat
  second : Nat
deriving DecidableEq

/-- Leap-year test of the proleptic Gregorian calendar used by `datetime`. -/
def isLeapYear (y : Nat) : Bool :=
  (y % 4 == 0 && y % 100 != 0) || y % 400 == 0

/-- Number of days in a month, as validated by `datetime`'s constructor. -/
def daysInMonth (y m : Nat) : Nat :=
  if m = 2 then (if isLeapYear y then 29 else 28)
  else if m = 4 ∨ m = 6 ∨ m = 9 ∨ m = 11 then 30
  else 31

/-- Days from the Unix epoch (1970-01-01) to the civil date `y-m-d`
(standard civil-from-days algorithm, for years `≥ 1`). -/
def daysFromCivil (y m d : Nat) : Int :=
  let y' := if m ≤ 2 then y - 1 else y
  let era := y' / 400
  let yoe := y' - era * 400
  let mp := (m + 9) % 12
  let doy := (153 * mp + 2) / 5 + d - 1
  let doe := yoe * 365 + yoe / 4 - yoe / 100 + doy
  (era * 146097 + doe : Int) - 719468

/-- Seconds from the Unix epoch of a naive `DateTime` read in UTC:
models `datetime.timestamp()` under the fixed-timezone convention. -/
def toEpoch (dt : DateTime) : Int :=
  daysFromCivil dt.year dt.month dt.day * 86400 +
    (dt.hour * 3600 + dt.minute * 60 + dt.second : Nat)

/-- Civil date from a day count since the Unix epoch
(standard days-to-civil algorithm, for non-negative day counts). -/
def civilFromDays (n : Nat) : Nat × Nat × Nat :=
  let z := n + 719468
  let era := z / 146097
  let doe := z % 146097
  let yoe := (doe - doe / 1460 + doe / 36524 - doe / 146096) / 365
  let y := yoe + era * 400
  let doy := doe - (365 * yoe + yoe / 4 - yoe / 100)
  let mp := (5 * doy + 2) / 153
  let d := doy - (153 * mp + 2) / 5 + 1
  let m := if mp < 10 then mp + 3 else mp - 9
  (if m ≤ 2 then y + 1 else y, m, d)

/-- Models `datetime.fromtimestamp(epoch)` for positive epochs
(the only case in which the code calls it). -/
def dateFromEpoch (ep : Int) : DateTime :=
  let n := ep.toNat
  let days := n / 86400
  let rem := n % 86400
  let c := civilFromDays days
  ⟨c.1, c.2.1, c.2.2, rem / 3600, rem % 3600 / 60, rem % 60⟩

/-- Zero-pad a number to two digits, as `strftime` does. -/
def pad2 (n : Nat) : String :=
  if n < 10 then "0" ++ toString n else toString n

/-- Zero-pad a number to four digits, as `strftime` does for `%Y`. -/
def pad4 (n : Nat) : String :=
  if n < 10 then "000" ++ toString n
  else if n < 100 then "00" ++ toString n
  else if n < 1000 then "0" ++ toString n
  else toString n

/-- Models `dt.strftime("%Y-%m-%dT%H:%M:%SZ")`. -/
def formatDateZ (dt : DateTime) : String :=
  pad4 dt.year ++ "-" ++ pad2 dt.month ++ "-" ++ pad2 dt.day ++ "T" ++
    pad2 dt.hour ++ ":" ++ pad2 dt.minute ++ ":" ++ pad2 dt.second ++ "Z"

/-- Models `dt.strftime("%Y-%m-%dT%H:%M:%S %z")` on a naive datetime:
`%z` renders as the empty string, leaving a trailing space. -/
def formatDateSpace (dt : DateTime) : String :=
  pad4 dt.year ++ "-" ++ pad2 dt.month ++ "-" ++ pad2 dt.day ++ "T" ++
    pad2 dt.hour ++ ":" ++ pad2 dt.minute ++ ":" ++ pad2 dt.second ++ " "

/-- Numeric value of a digit character. -/
def digitVal (c : Char) : Nat := c.toNat - 48

/-- Models `datetime.strptime(s, "%Y-%m-%dT%H:%M:%SZ")` on the canonical
zero-padded form of the format, returning `none` when the string does not
match the format or a field is out of `datetime`'s range. -/
def parseDateZ (s : String) : Option DateTime :=
  match s.toList with
  | [y1, y2, y3, y4, '-', m1, m2, '-', d1, d2, 'T',
     h1, h2, ':', i1, i2, ':', s1, s2, 'Z'] =>
    if ([y1, y2, y3, y4, m1, m2, d1, d2, h1, h2, i1, i2, s1, s2].all
          Char.isDigit) then
      let y := ((digitVal y1 * 10 + digitVal y2) * 10 + digitVal y3) * 10 +
        digitVal y4
      let mo := digitVal m1 * 10 + digitVal m2
      let d := digitVal d1 * 10 + digitVal d2
      let h := digitVal h1 * 10 + digitVal h2
      let mi := digitVal i1 * 10 + digitVal i2
      let se := digitVal s1 * 10 + digitVal s2
      if 1 ≤ y ∧ 1 ≤ mo ∧ mo ≤ 12 ∧ 1 ≤ d ∧ d ≤ daysInMonth y mo ∧
          h ≤ 23 ∧ mi ≤ 59 ∧ se ≤ 59 then
        some ⟨y, mo, d, h, mi, se⟩
      else none
    else none
  | _ => none

/-- Embedding of `util.str_to_datetime(date_str, fmt="%Y-%m-%dT%H:%M:%SZ")`:
a falsy argument (`None` or `""`) yields `None`; otherwise
`datetime.strptime` either parses the string or raises `ValueError`. -/
def str_to_datetime (date_str : Option String) : Except PyErr (Option DateTime) :=
  match date_str with
  | none => .ok none
  | some s =>
    if s = "" then .ok none
    else
      match parseDateZ s with
      | some d => .ok (some d)
      | none => .error (.valueError "time data does not match format")

/-- Embedding of `util.epoch_to_str(epoch)` with the default format
`"%Y-%m-%dT%H:%M:%S %z"`: falsy (`0`) or negative epochs yield `None`. -/
def epoch_to_str (epoch : Int) : Option String :=
  if epoch = 0 ∨ epoch < 0 then none
  else some (formatDateSpace (dateFromEpoch epoch))

/-- Time units accepted by `util.convert_seconds` (the code only ever passes
the literals `"d"`, `"h"` and `"m"`, so the invalid-unit `ValueError` branch
is unreachable and not modelled). -/
inductive TimeUnit where
  | d
  | h
  | m
deriving DecidableEq

/-- Embedding of `util.convert_seconds(seconds, unit)`: negative inputs yield
`None`; otherwise the value is divided down and truncated toward zero. -/
def convert_seconds (seconds : Int) (unit : TimeUnit) : Option Int :=
  if seconds < 0 then none
  else
    match unit with
    | .d => some (seconds.tdiv (24 * 3600))
    | .h => some (seconds.tdiv 3600)
    | .m => some (seconds.tdiv 60)

/-- Python `a or b` on integers: the first operand if it is truthy
(non-zero), otherwise the second. -/
def pyOrInt (a b : Int) : Int :=
  if a ≠ 0 then a else b

/-- The slice of a commit record read by the modelled functions
(fields `extract_commits` always populates). -/
structure CommitRecord where
  committer : String
  committer_date : String
  committer_epoch : Int
  parents : List String
  snakemake_related : Bool
  snakemake_n_rules_added : Int
  snakemake_n_rules_removed : Int
  snakemake_n_modules_added : Int
  snakemake_n_modules_removed : Int
  file_extensions : List String
deriving DecidableEq

/-- GitHub issue record fields read by the synthesizer. -/
structure Issue where
  number : Nat
  created_at : Option String
  closed_at : Option String
  user_login : String
deriving DecidableEq

/-- GitHub issue-comment record fields read by the synthesizer. -/
structure Comment where
  id : Nat
  created_at : Option String
  issue_url : String
  user_login : String
deriving DecidableEq

/-- GitHub issue-event record fields read by the synthesizer; `actor_login`
is `none` when the actor is missing or carries no login. -/
structure GhEvent where
  id : Nat
  created_at : Option String
  event : String
  actor_login : Option String
  issue_number : Nat
deriving DecidableEq

/-- GitHub pull-request record fields read by the synthesizer. -/
structure PullRequest where
  number : Nat
  created_at : Option String
  user_login : String
  merge_commit_sha : Option String
deriving DecidableEq

/-- The slice of a cycle descriptor read by the synthesizer:
`cycle_info["begin"]["epoch"]`, `cycle_info["end"]["epoch"]`,
`cycle_info["n_snakemake_rules_added"]` and
`cycle_info["n_snakemake_modules_added"]`. -/
structure CycleInfo where
  begin_epoch : Int
  end_epoch : Int
  n_snakemake_rules_added : Int
  n_snakemake_modules_added : Int
deriving DecidableEq

/-- One output record of the synthesizer. -/
structure EventLogEntry where
  case_id : String
  activity : String
  timestamp : Option String
  user : Option String
deriving DecidableEq

/-- Placeholder commit used to totalise hash lookups that the code performs
only on keys known to be present. -/
def defaultCommitRecord : CommitRecord :=
  ⟨"", "", 0, [], false, 0, 0, 0, 0, []⟩

/-- Lookup of `commits[h]` when `h` is known to be a key of the map. -/
def getCommit (cs : List (String × CommitRecord)) (h : String) : CommitRecord :=
  (cs.lookup h).getD defaultCommitRecord

/-- Committer epoch of the commit stored under hash `h`. -/
def epochOf (cs : List (String × CommitRecord)) (h : String) : Int :=
  (getCommit cs h).committer_epoch

/-- Embedding of `sorted(commits, key=lambda k: commits[k]['committer_epoch'])`:
a stable sort of the dict keys by committer epoch. -/
def sortedCommitHashes (cs : List (String × CommitRecord)) : List String :=
  List.insertionSort (fun a b => epochOf cs a ≤ epochOf cs b) (cs.map Prod.fst)

/-- Embedding of Python's `list.index(x)`: the first index of `x`, raising
`ValueError` when `x` is absent. -/
def pyIndex (l : List String) (x : String) : Except PyErr Nat :=
  match l.findIdx? (fun y => y == x) with
  | some i => .ok i
  | none => .error (.valueError (x ++ " is not in list"))

/-- Embedding of the two-parent merge-range loop
`for i in range(begin_index, end_index): child_commits.append(commits_hashes[i])`
(the indices produced by `.index` are always in bounds, so the `Option`
lookup never drops an index in the modelled calls). -/
def childCommits (hashes : List String) (b e : Nat) : List String :=
  (List.range' b (e - b)).filterMap (fun i => hashes[i]?)

/-- Issue-stream body of `generate_event_logs_for_evolution_cycle`
(git_analyzer.py lines 400-432) for a single issue: parse `created_at`
(skipping the record when it is falsy), parse a truthy `closed_at`
(the falsy-result skip is kept although `str_to_datetime` cannot return
`None` for a truthy argument), then emit the window-filtered
"Issue Created" and "Issue Closed" entries. -/
def process_issue (lo hi : Int) (iss : Issue) : Except PyErr (List EventLogEntry) :=
  match str_to_datetime iss.created_at with
  | .error e => .error e
  | .ok none => .ok []
  | .ok (some created) =>
    let created_epoch := toEpoch created
    let closedStep : Except PyErr (Option (Option DateTime)) :=
      match iss.closed_at with
      | none => .ok none
      | some s =>
        if s = "" then .ok none
        else
          match str_to_datetime (some s) with
          | .error e => .error e
          | .ok none => .ok (some none)
          | .ok (some c) => .ok (some (some c))
    match closedStep with
    | .error e => .error e
    | .ok (some none) => .ok []
    | .ok closedCase =>
      let closed : Option DateTime :=
        match closedCase with
        | some (some c) => some c
        | _ => none
      let l1 : List EventLogEntry :=
        if lo ≤ created_epoch ∧ created_epoch ≤ hi then
          [⟨"Issue-" ++ toString iss.number, "Issue Created",
            some (formatDateZ created), some iss.user_login⟩]
        else []
      let l2 : List EventLogEntry :=
        match closed with
        | some c =>
          if lo ≤ toEpoch c ∧ toEpoch c ≤ hi then
            [⟨"Issue-" ++ toString iss.number, "Issue Closed",
              some (formatDateZ c), some iss.user_login⟩]
          else []
        | none => []
      .ok (l1 ++ l2)

/-- The issue loop: entries of each issue in stream order. -/
def process_issues (lo hi : Int) : List Issue → Except PyErr (List EventLogEntry)
  | [] => .ok []
  | i :: rest =>
    match process_issue lo hi i with
    | .error e => .error e
    | .ok es =>
      match process_issues lo hi rest with
      | .error e => .error e
      | .ok es' => .ok (es ++ es')

/-- Comment-stream body (git_analyzer.py lines 434-447) for one comment:
the case id takes the last `/`-separated component of `issue_url`. -/
def process_comment (lo hi : Int) (c : Comment) : Except PyErr (List EventLogEntry) :=
  match str_to_datetime c.created_at with
  | .error e => .error e
  | .ok none => .ok []
  | .ok (some created) =>
    let created_epoch := toEpoch created
    if lo ≤ created_epoch ∧ created_epoch ≤ hi then
      .ok [⟨"Issue-" ++ (c.issue_url.splitOn "/").getLastD "",
        "Issue Commented", some (formatDateZ created), some c.user_login⟩]
    else .ok []

/-- The comment loop. -/
def process_comments (lo hi : Int) : List Comment → Except PyErr (List EventLogEntry)
  | [] => .ok []
  | c :: rest =>
    match process_comment lo hi c with
    | .error e => .error e
    | .ok es =>
      match process_comments lo hi rest with
      | .error e => .error e
      | .ok es' => .ok (es ++ es')

/-- Event-stream body (git_analyzer.py lines 449-465) for one event:
the activity is the provider's own event-type string and the user is the
actor login when present. -/
def process_event (lo hi : Int) (ev : GhEvent) : Except PyErr (List EventLogEntry) :=
  match str_to_datetime ev.created_at with
  | .error e => .error e
  | .ok none => .ok []
  | .ok (some created) =>
    let created_epoch := toEpoch created
    if lo ≤ created_epoch ∧ created_epoch ≤ hi then
      .ok [⟨"Issue-" ++ toString ev.issue_number, ev.event,
        some (formatDateZ created), ev.actor_login⟩]
    else .ok []

/-- The event loop. -/
def process_events (lo hi : Int) : List GhEvent → Except PyErr (List EventLogEntry)
  | [] => .ok []
  | ev :: rest =>
    match process_event lo hi ev with
    | .error e => .error e
    | .ok es =>
      match process_events lo hi rest with
      | .error e => .error e
      | .ok es' => .ok (es ++ es')

/-- Commit-stream loop (git_analyzer.py lines 467-489) over the epoch-sorted
hash list, threading the `commits_preprocessed` list that is read (but, in
program order, still empty) here.  Returns the emitted entries, the
`commit_parents` map and the `commits_hashes` list, in loop order. -/
def commits_loop (ci : CycleInfo) (cs : List (String × CommitRecord))
    (preprocessed : List String) :
    List String → List EventLogEntry × List (String × List String) × List String
  | [] => ([], [], [])
  | h :: rest =>
    if h ∈ preprocessed then commits_loop ci cs preprocessed rest
    else
      let commit := getCommit cs h
      let committed_epoch := commit.committer_epoch
      let committed_at := epoch_to_str committed_epoch
      let res := commits_loop ci cs preprocessed rest
      let parentsHere : List (String × List String) :=
        if commit.parents.length > 0 then [(h, commit.parents)] else []
      let entryHere : List EventLogEntry :=
        if ci.begin_epoch ≤ committed_epoch ∧ committed_epoch ≤ ci.end_epoch then
          [⟨"Commit-" ++ h.take 7,
            if ci.n_snakemake_rules_added > 0 ∨ ci.n_snakemake_modules_added > 0
            then "Committed-Snakemake" else "Committed",
            committed_at, some commit.committer⟩]
        else []
      (entryHere ++ res.1, parentsHere ++ res.2.1, h :: res.2.2)

/-- Pull-request body (git_analyzer.py lines 491-541) for one pull request:
parse `created_at` (skipping the record when falsy), emit the
window-filtered "Pull Request Opened" entry, then resolve the merge commit:
a one-parent merge attributes that parent (raising `KeyError` when it is
absent from the commit map), a two-parent merge attributes the commits at
timeline positions `[begin_index, end_index)` (`.index` raising `ValueError`
when a parent is absent from `commits_hashes`).  Returns the entries and the
hashes appended to `commits_preprocessed`. -/
def process_pr (ci : CycleInfo) (cs : List (String × CommitRecord))
    (commit_parents : List (String × List String)) (hashes : List String)
    (pr : PullRequest) : Except PyErr (List EventLogEntry × List String) :=
  match str_to_datetime pr.created_at with
  | .error e => .error e
  | .ok none => .ok ([], [])
  | .ok (some created) =>
    let created_epoch := toEpoch created
    let opened : List EventLogEntry :=
      if ci.begin_epoch ≤ created_epoch ∧ created_epoch ≤ ci.end_epoch then
        [⟨"Issue-" ++ toString pr.number, "Pull Request Opened",
          some (formatDateZ created), some pr.user_login⟩]
      else []
    match pr.merge_commit_sha with
    | none => .ok (opened, [])
    | some sha =>
      if sha = "" then .ok (opened, [])
      else
        match commit_parents.lookup sha with
        | none => .ok (opened, [])
        | some parents =>
          match parents with
          | [p0] =>
            match cs.lookup p0 with
            | none => .error (.keyError p0)
            | some c0 =>
              .ok (opened ++
                [⟨"Issue-" ++ toString pr.number, "Committed",
                  some c0.committer_date, some pr.user_login⟩], [p0])
          | [p0, p1] =>
            match pyIndex hashes p0 with
            | .error e => .error e
            | .ok begin_index =>
              match pyIndex hashes p1 with
              | .error e => .error e
              | .ok end_index =>
                let pairs :=
                  (childCommits hashes begin_index end_index).filterMap
                    (fun ch => (cs.lookup ch).map (fun cc => (ch, cc)))
                .ok (opened ++ pairs.map (fun p =>
                  ⟨"Issue-" ++ toString pr.number, "Committed",
                    some p.2.committer_date, some pr.user_login⟩),
                  pairs.map Prod.fst)
          | _ => .ok (opened, [])

/-- The pull-request loop, concatenating entries and
`commits_preprocessed` additions in stream order. -/
def process_prs (ci : CycleInfo) (cs : List (String × CommitRecord))
    (commit_parents : List (String × List String)) (hashes : List String) :
    List PullRequest → Except PyErr (List EventLogEntry × List String)
  | [] => .ok ([], [])
  | pr :: rest =>
    match process_pr ci cs commit_parents hashes pr with
    | .error e => .error e
    | .ok (es, pre) =>
      match process_prs ci cs commit_parents hashes rest with
      | .error e => .error e
      | .ok (es', pre') => .ok (es ++ es', pre ++ pre')

/-- Lexicographic comparison of optional timestamp strings, stated on the
character lists (code-point order, Python's string comparison; equivalent
to Lean's `String` order by `String.le_iff_toList_le`); the `none` cases
are never compared by the modelled sort, see `final_sort`. -/
def optStrLe : Option String → Option String → Prop
  | none, _ => True
  | some _, none => False
  | some sa, some sb => sa.toList ≤ sb.toList

instance : DecidableRel optStrLe := fun a b =>
  match a, b with
  | none, _ => inferInstanceAs (Decidable True)
  | some _, none => inferInstanceAs (Decidable False)
  | some sa, some sb => inferInstanceAs (Decidable (sa.toList ≤ sb.toList))

/-- Ordering used by the final `sorted(event_logs, key=lambda x: x["timestamp"])`. -/
def entryLe (a b : EventLogEntry) : Prop :=
  optStrLe a.timestamp b.timestamp

instance : DecidableRel entryLe := fun a b =>
  inferInstanceAs (Decidable (optStrLe a.timestamp b.timestamp))

/-- Embedding of the final `sorted(...)` call: when at least two entries are
present and some timestamp is `None`, CPython's sort compares `None` with a
string and raises `TypeError`; otherwise the stable sort returns the entries
ordered by timestamp string. -/
def final_sort (l : List EventLogEntry) : Except PyErr (List EventLogEntry) :=
  if 2 ≤ l.length ∧ l.any (fun e => e.timestamp.isNone) then .error .typeError
  else .ok (List.insertionSort entryLe l)

/-- Embedding of `GitAnalysis.generate_event_logs_for_evolution_cycle`
(git_analyzer.py lines 388-543).  The five streams are processed in program
order; `commits_preprocessed` starts empty, is read by the commit loop and
is appended to by the pull-request loop afterwards. -/
def generate_event_logs_for_evolution_cycle (ci : CycleInfo)
    (issues : List Issue) (comments : List Comment) (events : List GhEvent)
    (pullrequests : List PullRequest) (commits : List (String × CommitRecord)) :
    Except PyErr (List EventLogEntry) :=
  match process_issues ci.begin_epoch ci.end_epoch issues with
  | .error e => .error e
  | .ok e1 =>
    match process_comments ci.begin_epoch ci.end_epoch comments with
    | .error e => .error e
    | .ok e2 =>
      match process_events ci.begin_epoch ci.end_epoch events with
      | .error e => .error e
      | .ok e3 =>
        match commits_loop ci commits [] (sortedCommitHashes commits) with
        | (e4, commit_parents, commits_hashes) =>
          match process_prs ci commits commit_parents commits_hashes
              pullrequests with
          | .error e => .error e
          | .ok (e5, _pre) => final_sort (e1 ++ e2 ++ e3 ++ e4 ++ e5)

/-- A `{hash, epoch}` cycle boundary marker (`cycle_current` and friends);
the empty dict `{}` is modelled as `none` at the use sites. -/
structure CycleMarker where
  hash : String
  epoch : Int
deriving DecidableEq

/-- One element of `repo_info["evolution_cycles"]` (the dict keys `begin`
and `end` are rendered `cbegin`/`cend` because `end` is a Lean keyword). -/
structure EvolutionCycle where
  cbegin : CycleMarker
  cend : CycleMarker
  diff_days : Option Int
  diff_mins : Option Int
  diff_hours : Option Int
  n_commits : Int
  n_commits_snakemake_related : Int
  n_snakemake_rules_added : Int
  n_snakemake_rules_removed : Int
  n_snakemake_modules_added : Int
  n_snakemake_modules_removed : Int
  file_extensions : List String
deriving DecidableEq

/-- The fields `extend_repo_info_for_snakemake` adds to `repo_info`
(the untouched passthrough fields of the input dict are not modelled). -/
structure RepoSnakemakeInfo where
  n_commits_snakemake_related : Int
  n_evolution_cycles : Int
  evolution_cycles : List EvolutionCycle
deriving DecidableEq

/-- The loop state of `extend_repo_info_for_snakemake`: the mutable
`repo_info` fields plus every local accumulator variable of the source. -/
structure SegState where
  info : RepoSnakemakeInfo
  cycle_begin : Option CycleMarker
  cycle_end : Option CycleMarker
  cycle_n_commits : Int
  cycle_n_commits_snakemake_related : Int
  cycle_n_snakemake_rules_added : Int
  cycle_n_snakemake_rules_removed : Int
  cycle_n_snakemake_modules_added : Int
  cycle_n_snakemake_modules_removed : Int
  day_rules_added : Int
  day_rules_removed : Int
  day_modules_added : Int
  day_modules_removed : Int
  is_last_commit_of_the_day : Bool
  file_extensions : List String
deriving DecidableEq

/-- Initial segmenter state (git_analyzer.py lines 603-621). -/
def segInit : SegState :=
  ⟨⟨0, 0, []⟩, none, none, 0, 0, 0, 0, 0, 0, 0, 0, 0, 0, false, []⟩

/-- The structural-change test of the segmenter (git_analyzer.py lines
646-651): Python's `or` applied to the two signed counter differences of a
single commit. -/
def addedOrRemovedInt (c : CommitRecord) : Int :=
  pyOrInt (c.snakemake_n_rules_added - c.snakemake_n_rules_removed)
    (c.snakemake_n_modules_added - c.snakemake_n_modules_removed)

/-- The loop of `extend_repo_info_for_snakemake` (git_analyzer.py lines
623-717), as a recursion over the epoch-sorted hash list; the head of the
remaining list plays the role of `commit_hashes_sorted_by_epoch[i_commit]`
and the tail's head of index `i_commit + 1`. -/
def segStep (cs : List (String × CommitRecord)) (st : SegState) :
    List String → Except PyErr SegState
  | [] => .ok st
  | h :: rest =>
    let commit := getCommit cs h
    let st := { st with cycle_n_commits := st.cycle_n_commits + 1 }
    let st :=
      if commit.snakemake_related then
        { st with info :=
          { st.info with n_commits_snakemake_related :=
              st.info.n_commits_snakemake_related + 1 } }
      else st
    let cycle_current : CycleMarker := ⟨h, commit.committer_epoch⟩
    match st.cycle_begin with
    | none =>
      let st := { st with
        cycle_begin := some cycle_current,
        cycle_n_commits := if st.cycle_end = none then 1 else 0 }
      segStep cs st rest
    | some bm =>
      let st := { st with cycle_end := some cycle_current }
      let st :=
        if commit.snakemake_related then
          { st with cycle_n_commits_snakemake_related :=
              st.cycle_n_commits_snakemake_related + 1 }
        else st
      let added_or_removed := addedOrRemovedInt commit
      if added_or_removed ≠ 0 ∨ st.is_last_commit_of_the_day then
        let begin_epoch := bm.epoch
        let end_epoch := cycle_current.epoch
        if begin_epoch ≠ 0 ∧ end_epoch ≠ 0 then
          let diff_days := convert_seconds (end_epoch - begin_epoch) .d
          let diff_mins := convert_seconds (end_epoch - begin_epoch) .m
          let diff_hours := convert_seconds (end_epoch - begin_epoch) .h
          let deferSameDay : Bool :=
            match rest.head? with
            | some next_hash =>
              convert_seconds
                ((getCommit cs next_hash).committer_epoch - end_epoch) .d
                == some 0
            | none => false
          if deferSameDay then
            let st := { st with
              day_rules_added :=
                st.day_rules_added + commit.snakemake_n_rules_added,
              day_rules_removed :=
                st.day_rules_removed + commit.snakemake_n_rules_removed,
              day_modules_added :=
                st.day_modules_added + commit.snakemake_n_modules_added,
              day_modules_removed :=
                st.day_modules_removed + commit.snakemake_n_modules_removed,
              file_extensions := st.file_extensions ++ commit.file_extensions,
              is_last_commit_of_the_day := true }
            segStep cs st rest
          else
            let rulesAdded :=
              commit.snakemake_n_rules_added + st.day_rules_added
            let rulesRemoved :=
              commit.snakemake_n_rules_removed + st.day_rules_removed
            let modulesAdded :=
              commit.snakemake_n_modules_added + st.day_modules_added
            let modulesRemoved :=
              commit.snakemake_n_modules_removed + st.day_modules_removed
            let exts := st.file_extensions ++ commit.file_extensions
            let cycle : EvolutionCycle :=
              ⟨bm, cycle_current, diff_days, diff_mins, diff_hours,
                st.cycle_n_commits, st.cycle_n_commits_snakemake_related,
                rulesAdded, rulesRemoved, modulesAdded, modulesRemoved,
                exts.eraseDups⟩
            let st := { st with
              info := ⟨st.info.n_commits_snakemake_related,
                st.info.n_evolution_cycles + 1,
                st.info.evolution_cycles ++ [cycle]⟩,
              cycle_begin := some cycle_current,
              cycle_n_commits_snakemake_related := 0,
              cycle_n_commits := 0,
              cycle_n_snakemake_rules_added := 0,
              cycle_n_snakemake_rules_removed := 0,
              cycle_n_snakemake_modules_added := 0,
              cycle_n_snakemake_modules_removed := 0,
              day_rules_added := 0,
              day_rules_removed := 0,
              day_modules_added := 0,
              day_modules_removed := 0,
              is_last_commit_of_the_day := false,
              file_extensions := [] }
            segStep cs st rest
        else
          .error (.valueError "Invalid epoch values for cycle begin and end.")
      else segStep cs st rest

/-- Embedding of `GitAnalysis.extend_repo_info_for_snakemake`
(git_analyzer.py lines 596-743): the empty-commit-map precondition, the
segmentation loop and the leftover-cycle flush.  `list(set(...))` is
modelled as `List.eraseDups` (its element order is not relied upon). -/
def extend_repo_info_for_snakemake (cs : List (String × CommitRecord)) :
    Except PyErr RepoSnakemakeInfo :=
  if cs = [] then .error (.valueError "'commits' is required.")
  else
    match segStep cs segInit (sortedCommitHashes cs) with
    | .error e => .error e
    | .ok st =>
      match st.cycle_begin, st.cycle_end with
      | some bm, some em =>
        if bm ≠ em then
          let diff_days := convert_seconds (em.epoch - bm.epoch) .d
          let diff_mins := convert_seconds (em.epoch - bm.epoch) .m
          let diff_hours := convert_seconds (em.epoch - bm.epoch) .h
          let cycle : EvolutionCycle :=
            ⟨bm, em, diff_days, diff_mins, diff_hours,
              st.cycle_n_commits, st.cycle_n_commits_snakemake_related,
              st.cycle_n_snakemake_rules_added,
              st.cycle_n_snakemake_rules_removed,
              st.cycle_n_snakemake_modules_added,
              st.cycle_n_snakemake_modules_removed,
              st.file_extensions.eraseDups⟩
          .ok ⟨st.info.n_commits_snakemake_related,
            st.info.n_evolution_cycles + 1,
            st.info.evolution_cycles ++ [cycle]⟩
        else .ok st.info
      | _, _ => .ok st.info

/-- Specification-side predicate: the timestamp string is the one produced
for a record whose relevant epoch lies in the window `[lo, hi]` — either a
`strftime("%Y-%m-%dT%H:%M:%SZ")` of an in-window datetime, or
`epoch_to_str` of an in-window epoch. -/
def TimestampInWindow (lo hi : Int) (ts : Option String) : Prop :=
  (∃ d : DateTime, lo ≤ toEpoch d ∧ toEpoch d ≤ hi ∧ ts = some (formatDateZ d)) ∨
  (∃ ep : Int, lo ≤ ep ∧ ep ≤ hi ∧ ts = epoch_to_str ep)

theorem optStrLe_total (a b : Option String) : optStrLe a b ∨ optStrLe b a := by
  cases a <;> cases b <;> simp [optStrLe, le_total]

theorem optStrLe_trans {a b c : Option String} (hab : optStrLe a b)
    (hbc : optStrLe b c) : optStrLe a c := by
  cases a with
  | none => trivial
  | some sa =>
    cases b with
    | none => exact hab.elim
    | some sb =>
      cases c with
      | none => exact hbc.elim
      | some sc => exact le_trans hab hbc

instance : IsTotal EventLogEntry entryLe :=
  ⟨fun a b => optStrLe_total a.timestamp b.timestamp⟩

instance : IsTrans EventLogEntry entryLe :=
  ⟨fun _ _ _ hab hbc => optStrLe_trans hab hbc⟩

/-- Filtering an ordered insertion by "key equals `e`" keeps the inserted
element in front exactly when its key is `e`: the elements passed over by
`orderedInsert` all have strictly smaller keys. -/
theorem filter_orderedInsert_key {α β : Type} [LinearOrder β] (key : α → β)
    (e : β) (x : α) (l : List α) :
    (List.orderedInsert (fun a b => key a ≤ key b) x l).filter
        (fun a => key a == e) =
      if key x == e then x :: l.filter (fun a => key a == e)
      else l.filter (fun a => key a == e) := by
  induction l with
  | nil =>
    by_cases hx : key x = e <;>
      simp [List.orderedInsert, List.filter_cons, beq_iff_eq, hx]
  | cons y ys ih =>
    by_cases hxy : key x ≤ key y
    · simp only [List.orderedInsert]
      rw [if_pos hxy]
      by_cases hx : key x = e <;> by_cases hy : key y = e <;>
        simp [List.filter_cons, beq_iff_eq, hx, hy]
    · simp only [List.orderedInsert]
      rw [if_neg hxy]
      have hyx : key y < key x := lt_of_not_le hxy
      by_cases hx : key x = e
      · have hy : key y ≠ e := ne_of_lt (hx ▸ hyx)
        simp [List.filter_cons, beq_iff_eq, hy, ih, hx]
      · by_cases hy : key y = e <;>
          simp [List.filter_cons, beq_iff_eq, hy, ih, hx]

/-- A stable sort by `key` preserves the relative order of equal-key
elements: filtering the sorted list to one key value recovers the filtered
input. -/
theorem filter_insertionSort_key {α β : Type} [LinearOrder β] (key : α → β)
    (e : β) (l : List α) :
    (List.insertionSort (fun a b => key a ≤ key b) l).filter
        (fun a => key a == e) =
      l.filter (fun a => key a == e) := by
  induction l with
  | nil => rfl
  | cons x xs ih =>
    simp only [List.insertionSort, filter_orderedInsert_key]
    by_cases hx : key x = e <;>
      simp [List.filter_cons, beq_iff_eq, hx, ih]

/-- Claim C2 (counterexample): with the two parents of a merge commit at
timeline positions 0 and 2 (so i = 0 < j = 2), the claim predicts that
exactly the commit strictly between them (position 1, `"b"`) is attributed;
the resolver's range loop actually also attributes the earlier parent's own
commit at position 0 (`"a"`), because Python's `range(begin_index,
end_index)` includes `begin_index`. -/
theorem merge_range_strictly_between_refuted :
    childCommits ["a", "b", "c"] 0 2 = ["a", "b"] ∧
      childCommits ["a", "b", "c"] 0 2 ≠ ["b"] := by
  constructor
  · rfl
  · decide

/-- Claim C2 (amended): for a two-parent merge with parent positions `i`
and `j` in the ordered timeline, the resolver attributes exactly the
commits at positions `k` with `i ≤ k < j` — the half-open range that
includes the earlier parent's own position `i` (not only the positions
strictly between) and always excludes position `j`. -/
theorem merge_range_half_open (hashes : List String) (i j : Nat) (x : String) :
    x ∈ childCommits hashes i j ↔
      ∃ k, i ≤ k ∧ k < j ∧ hashes[k]? = some x := by
  unfold childCommits
  simp only [List.mem_filterMap, List.mem_range'_1]
  constructor
  · rintro ⟨k, ⟨hk1, hk2⟩, hget⟩
    exact ⟨k, hk1, by omega, hget⟩
  · rintro ⟨k, hk1, hk2, hget⟩
    exact ⟨k, ⟨hk1, by omega⟩, hget⟩

/-- Claim C8 (confirmed): the segmenter's structural-change test — the
truthiness of `added_or_removed = (rules_added - rules_removed) or
(modules_added - modules_removed)`, the value `segStep` branches on — is
true exactly when one of the two signed differences of the single commit's
own counters is non-zero. -/
theorem structural_change_test_iff (c : CommitRecord) :
    addedOrRemovedInt c ≠ 0 ↔
      (c.snakemake_n_rules_added - c.snakemake_n_rules_removed ≠ 0 ∨
        c.snakemake_n_modules_added - c.snakemake_n_modules_removed ≠ 0) := by
  unfold addedOrRemovedInt pyOrInt
  split
  · rename_i h
    exact ⟨fun _ => Or.inl h, fun _ => h⟩
  · rename_i h
    push_neg at h
    simp [h]

/-- The merge-range loop produces nothing when the second parent's index
does not exceed the first parent's index. -/
theorem childCommits_of_le {hashes : List String} {b e : Nat} (h : e ≤ b) :
    childCommits hashes b e = [] := by
  unfold childCommits
  rw [Nat.sub_eq_zero_of_le h]
  rfl

/-- Claim C9 (confirmed): for a pull request whose two-parent merge commit
has its first listed parent at position `b` and its second at position
`e ≤ b` in the ordered timeline, `process_pr` contributes no commit
attributions: nothing is appended to `commits_preprocessed` and every
emitted entry is the "Pull Request Opened" one; the resolver uses the
listed parent order as-is and never swaps the indices. -/
theorem reversed_parents_no_attribution (ci : CycleInfo)
    (cs : List (String × CommitRecord))
    (commit_parents : List (String × List String)) (hashes : List String)
    (pr : PullRequest) (sha p0 p1 : String) (b e : Nat)
    (res : List EventLogEntry × List String)
    (hsha : pr.merge_commit_sha = some sha) (hne : sha ≠ "")
    (hpar : commit_parents.lookup sha = some [p0, p1])
    (hb : pyIndex hashes p0 = .ok b) (he : pyIndex hashes p1 = .ok e)
    (hle : e ≤ b)
    (hok : process_pr ci cs commit_parents hashes pr = .ok res) :
    res.2 = [] ∧ ∀ en ∈ res.1, en.activity = "Pull Request Opened" := by
  rcases hctd : str_to_datetime pr.created_at with err | copt
  · rw [process_pr, hctd] at hok
    cases hok
  · rcases copt with - | created
    · rw [process_pr, hctd] at hok
      cases hok
      exact ⟨rfl, by intro en hen; cases hen⟩
    · rw [process_pr, hctd] at hok
      simp only [hsha, hpar, hb, he, if_neg hne,
        childCommits_of_le hle, List.filterMap_nil, List.map_nil,
        List.append_nil] at hok
      cases hok
      refine ⟨rfl, ?_⟩
      intro en hen
      by_cases hw : ci.begin_epoch ≤ toEpoch created ∧
          toEpoch created ≤ ci.end_epoch
      · rw [if_pos hw] at hen
        simp only [List.mem_singleton] at hen
        subst hen
        rfl
      · rw [if_neg hw] at hen
        cases hen

/-- Witness for `reversed_parents_no_attribution` at a concrete input. -/
theorem reversed_parents_no_attribution_witness :
    ((⟨7, some "1970-01-01T00:03:00Z", "u", some "m"⟩ :
        PullRequest).merge_commit_sha = some "m") ∧
      ([("m", ["b", "a"])].lookup "m" = some ["b", "a"]) ∧
      pyIndex ["a", "b"] "b" = .ok 1 ∧ pyIndex ["a", "b"] "a" = .ok 0 ∧
      (process_pr ⟨1, 1000, 0, 0⟩ [] [("m", ["b", "a"])] ["a", "b"]
          ⟨7, some "1970-01-01T00:03:00Z", "u", some "m"⟩ =
        .ok ([⟨"Issue-7", "Pull Request Opened",
          some "1970-01-01T00:03:00Z", some "u"⟩], [])) ∧
      (([⟨"Issue-7", "Pull Request Opened",
          some "1970-01-01T00:03:00Z", some "u"⟩],
        ([] : List String)) : List EventLogEntry × List String).2 = [] ∧
      ∀ en ∈ ([⟨"Issue-7", "Pull Request Opened",
          some "1970-01-01T00:03:00Z", some "u"⟩] : List EventLogEntry),
        en.activity = "Pull Request Opened" := by
  refine ⟨rfl, rfl, rfl, rfl, rfl, ?_⟩
  have h := reversed_parents_no_attribution ⟨1, 1000, 0, 0⟩ []
    [("m", ["b", "a"])] ["a", "b"]
    ⟨7, some "1970-01-01T00:03:00Z", "u", some "m"⟩ "m" "b" "a" 1 0
    ([⟨"Issue-7", "Pull Request Opened", some "1970-01-01T00:03:00Z",
      some "u"⟩], [])
    rfl (by decide) rfl rfl rfl (by decide) rfl
  exact ⟨h.1, h.2⟩

/-- Claim C7 (confirmed): ordering a non-empty commit map by committer epoch
yields non-decreasing epochs along the result, and the order is stable: for
every epoch value, the hashes carrying that epoch appear in the same order
as in the input map. -/
theorem commit_timeline_order (cs : List (String × CommitRecord))
    (_hne : cs ≠ []) :
    List.Chain' (fun a b => epochOf cs a ≤ epochOf cs b)
        (sortedCommitHashes cs) ∧
      ∀ e : Int, (sortedCommitHashes cs).filter (fun h => epochOf cs h == e) =
        (cs.map Prod.fst).filter (fun h => epochOf cs h == e) := by
  constructor
  · haveI : IsTotal String (fun a b => epochOf cs a ≤ epochOf cs b) :=
      ⟨fun a b => le_total _ _⟩
    haveI : IsTrans String (fun a b => epochOf cs a ≤ epochOf cs b) :=
      ⟨fun a b c hab hbc => le_trans hab hbc⟩
    exact (List.sorted_insertionSort _ _).chain'
  · intro e
    exact filter_insertionSort_key (epochOf cs) e (cs.map Prod.fst)

/-- Witness for `commit_timeline_order` at a one-commit map. -/
theorem commit_timeline_order_witness :
    ([("a", defaultCommitRecord)] : List (String × CommitRecord)) ≠ [] ∧
      (List.Chain'
          (fun a b => epochOf [("a", defaultCommitRecord)] a ≤
            epochOf [("a", defaultCommitRecord)] b)
          (sortedCommitHashes [("a", defaultCommitRecord)]) ∧
        ∀ e : Int,
          (sortedCommitHashes [("a", defaultCommitRecord)]).filter
              (fun h => epochOf [("a", defaultCommitRecord)] h == e) =
            ([("a", defaultCommitRecord)].map Prod.fst).filter
              (fun h => epochOf [("a", defaultCommitRecord)] h == e)) :=
  ⟨by decide, commit_timeline_order [("a", defaultCommitRecord)] (by decide)⟩

/-- A successful `final_sort` returns a list sorted under `entryLe`. -/
theorem final_sort_sorted {l L : List EventLogEntry}
    (h : final_sort l = .ok L) : List.Sorted entryLe L := by
  unfold final_sort at h
  split at h
  · cases h
  · cases h
    exact List.sorted_insertionSort entryLe l

/-- A successful `final_sort` returns a permutation of its input. -/
theorem final_sort_perm {l L : List EventLogEntry}
    (h : final_sort l = .ok L) : ∀ x ∈ L, x ∈ l := by
  unfold final_sort at h
  split at h
  · cases h
  · cases h
    intro x hx
    exact (List.perm_insertionSort entryLe l).mem_iff.mp hx

/-- Claim C6 (confirmed): whenever the synthesizer returns a sequence, each
adjacent pair of entries has lexicographically non-decreasing timestamp
strings. -/
theorem synthesized_log_sorted (ci : CycleInfo) (issues : List Issue)
    (comments : List Comment) (events : List GhEvent)
    (pullrequests : List PullRequest) (commits : List (String × CommitRecord))
    (L : List EventLogEntry)
    (h : generate_event_logs_for_evolution_cycle ci issues comments events
      pullrequests commits = .ok L) :
    List.Chain' (fun a b => ∀ sa sb, a.timestamp = some sa →
      b.timestamp = some sb → sa ≤ sb) L := by
  have hs : List.Sorted entryLe L := by
    unfold generate_event_logs_for_evolution_cycle at h
    split at h
    · cases h
    · split at h
      · cases h
      · split at h
        · cases h
        · split at h
          · split at h
            · cases h
            · exact final_sort_sorted h
  have hc : List.Chain' entryLe L := hs.chain'
  refine hc.imp ?_
  intro a b hab sa sb ha hb
  unfold entryLe at hab
  rw [ha, hb] at hab
  exact String.le_iff_toList_le.mpr hab

/-- Witness for `synthesized_log_sorted` at a concrete two-commit input. -/
theorem synthesized_log_sorted_witness :
    (generate_event_logs_for_evolution_cycle ⟨1, 1000, 0, 0⟩ [] [] [] []
        [("bb", ⟨"c2", "x", 200, [], false, 0, 0, 0, 0, []⟩),
         ("aa", ⟨"c1", "y", 100, [], false, 0, 0, 0, 0, []⟩)] =
      .ok [⟨"Commit-aa", "Committed", epoch_to_str 100, some "c1"⟩,
        ⟨"Commit-bb", "Committed", epoch_to_str 200, some "c2"⟩]) ∧
      List.Chain' (fun a b : EventLogEntry => ∀ sa sb, a.timestamp = some sa →
          b.timestamp = some sb → sa ≤ sb)
        ([⟨"Commit-aa", "Committed", epoch_to_str 100, some "c1"⟩,
          ⟨"Commit-bb", "Committed", epoch_to_str 200, some "c2"⟩] :
          List EventLogEntry) :=
  ⟨by rfl, synthesized_log_sorted ⟨1, 1000, 0, 0⟩ [] [] [] []
    [("bb", ⟨"c2", "x", 200, [], false, 0, 0, 0, 0, []⟩),
     ("aa", ⟨"c1", "y", 100, [], false, 0, 0, 0, 0, []⟩)] _ (by rfl)⟩

/-- A record whose timestamp is falsy (`None` or `""`) contributes
nothing to the issue stream. -/
theorem process_issue_skip {iss : Issue} (lo hi : Int)
    (h : iss.created_at = none ∨ iss.created_at = some "") :
    process_issue lo hi iss = .ok [] := by
  rcases h with h | h <;> simp [process_issue, str_to_datetime, h]

/-- Skipping a falsy-timestamp issue leaves the issue stream unchanged. -/
theorem process_issues_cons_skip {iss : Issue} (lo hi : Int)
    (rest : List Issue)
    (h : iss.created_at = none ∨ iss.created_at = some "") :
    process_issues lo hi (iss :: rest) = process_issues lo hi rest := by
  simp only [process_issues, process_issue_skip lo hi h]
  cases process_issues lo hi rest <;> rfl

/-- A comment with a falsy timestamp contributes nothing. -/
theorem process_comment_skip {c : Comment} (lo hi : Int)
    (h : c.created_at = none ∨ c.created_at = some "") :
    process_comment lo hi c = .ok [] := by
  rcases h with h | h <;> simp [process_comment, str_to_datetime, h]

/-- Skipping a falsy-timestamp comment leaves the comment stream unchanged. -/
theorem process_comments_cons_skip {c : Comment} (lo hi : Int)
    (rest : List Comment)
    (h : c.created_at = none ∨ c.created_at = some "") :
    process_comments lo hi (c :: rest) = process_comments lo hi rest := by
  simp only [process_comments, process_comment_skip lo hi h]
  cases process_comments lo hi rest <;> rfl

/-- An event with a falsy timestamp contributes nothing. -/
theorem process_event_skip {ev : GhEvent} (lo hi : Int)
    (h : ev.created_at = none ∨ ev.created_at = some "") :
    process_event lo hi ev = .ok [] := by
  rcases h with h | h <;> simp [process_event, str_to_datetime, h]

/-- Skipping a falsy-timestamp event leaves the event stream unchanged. -/
theorem process_events_cons_skip {ev : GhEvent} (lo hi : Int)
    (rest : List GhEvent)
    (h : ev.created_at = none ∨ ev.created_at = some "") :
    process_events lo hi (ev :: rest) = process_events lo hi rest := by
  simp only [process_events, process_event_skip lo hi h]
  cases process_events lo hi rest <;> rfl

/-- A pull request with a falsy timestamp contributes nothing. -/
theorem process_pr_skip {pr : PullRequest} (ci : CycleInfo)
    (cs : List (String × CommitRecord))
    (cp : List (String × List String)) (hashes : List String)
    (h : pr.created_at = none ∨ pr.created_at = some "") :
    process_pr ci cs cp hashes pr = .ok ([], []) := by
  rcases h with h | h <;> simp [process_pr, str_to_datetime, h]

/-- Skipping a falsy-timestamp pull request leaves the stream unchanged. -/
theorem process_prs_cons_skip {pr : PullRequest} (ci : CycleInfo)
    (cs : List (String × CommitRecord))
    (cp : List (String × List String)) (hashes : List String)
    (rest : List PullRequest)
    (h : pr.created_at = none ∨ pr.created_at = some "") :
    process_prs ci cs cp hashes (pr :: rest) =
      process_prs ci cs cp hashes rest := by
  simp only [process_prs, process_pr_skip ci cs cp hashes h]
  cases hr : process_prs ci cs cp hashes rest with
  | error e => rfl
  | ok p => rfl

/-- Claim C3 (counterexample): an issue whose `created_at` string is present
but not in the expected format makes the whole synthesis call raise
`ValueError` from `datetime.strptime` — the record is not skipped and the
call does not return a log. -/
theorem unparsable_timestamp_raises :
    generate_event_logs_for_evolution_cycle ⟨1, 1000, 0, 0⟩
        [⟨5, some "garbage", none, "u"⟩] [] [] [] [] =
      .error (.valueError "time data does not match format") := rfl

/-- Claim C3 (amended): only a missing/empty (`falsy`) required timestamp
makes the synthesizer log a warning and skip that single record, in each of
the four parsed streams; a present but unparsable timestamp instead raises
`ValueError` and aborts the call (see `unparsable_timestamp_raises`). -/
theorem missing_timestamp_skips_record :
    (∀ (ci : CycleInfo) (iss : Issue) (is' : List Issue) (cs : List Comment)
        (es : List GhEvent) (ps : List PullRequest)
        (cm : List (String × CommitRecord)),
      iss.created_at = none ∨ iss.created_at = some "" →
      generate_event_logs_for_evolution_cycle ci (iss :: is') cs es ps cm =
        generate_event_logs_for_evolution_cycle ci is' cs es ps cm) ∧
    (∀ (ci : CycleInfo) (c : Comment) (is' : List Issue) (cs : List Comment)
        (es : List GhEvent) (ps : List PullRequest)
        (cm : List (String × CommitRecord)),
      c.created_at = none ∨ c.created_at = some "" →
      generate_event_logs_for_evolution_cycle ci is' (c :: cs) es ps cm =
        generate_event_logs_for_evolution_cycle ci is' cs es ps cm) ∧
    (∀ (ci : CycleInfo) (ev : GhEvent) (is' : List Issue) (cs : List Comment)
        (es : List GhEvent) (ps : List PullRequest)
        (cm : List (String × CommitRecord)),
      ev.created_at = none ∨ ev.created_at = some "" →
      generate_event_logs_for_evolution_cycle ci is' cs (ev :: es) ps cm =
        generate_event_logs_for_evolution_cycle ci is' cs es ps cm) ∧
    (∀ (ci : CycleInfo) (pr : PullRequest) (is' : List Issue)
        (cs : List Comment) (es : List GhEvent) (ps : List PullRequest)
        (cm : List (String × CommitRecord)),
      pr.created_at = none ∨ pr.created_at = some "" →
      generate_event_logs_for_evolution_cycle ci is' cs es (pr :: ps) cm =
        generate_event_logs_for_evolution_cycle ci is' cs es ps cm) := by
  refine ⟨?_, ?_, ?_, ?_⟩
  · intro ci iss is' cs es ps cm h
    unfold generate_event_logs_for_evolution_cycle
    rw [process_issues_cons_skip ci.begin_epoch ci.end_epoch is' h]
  · intro ci c is' cs es ps cm h
    unfold generate_event_logs_for_evolution_cycle
    rw [process_comments_cons_skip ci.begin_epoch ci.end_epoch cs h]
  · intro ci ev is' cs es ps cm h
    unfold generate_event_logs_for_evolution_cycle
    rw [process_events_cons_skip ci.begin_epoch ci.end_epoch es h]
  · intro ci pr is' cs es ps cm h
    unfold generate_event_logs_for_evolution_cycle
    cases process_issues ci.begin_epoch ci.end_epoch is' with
    | error e => rfl
    | ok e1 =>
      cases process_comments ci.begin_epoch ci.end_epoch cs with
      | error e => rfl
      | ok e2 =>
        cases process_events ci.begin_epoch ci.end_epoch es with
        | error e => rfl
        | ok e3 =>
          rcases commits_loop ci cm [] (sortedCommitHashes cm) with
            ⟨e4, cp, ch⟩
          dsimp only
          rw [process_prs_cons_skip ci cm cp ch ps h]

/-- Witness for `missing_timestamp_skips_record` at one concrete issue. -/
theorem missing_timestamp_skips_record_witness :
    ((⟨5, none, none, "u"⟩ : Issue).created_at = none ∨
      (⟨5, none, none, "u"⟩ : Issue).created_at = some "") ∧
      generate_event_logs_for_evolution_cycle ⟨1, 1000, 0, 0⟩
          [⟨5, none, none, "u"⟩] [] [] [] [] =
        generate_event_logs_for_evolution_cycle ⟨1, 1000, 0, 0⟩
          [] [] [] [] [] :=
  ⟨Or.inl rfl, missing_timestamp_skips_record.1 ⟨1, 1000, 0, 0⟩
    ⟨5, none, none, "u"⟩ [] [] [] [] [] (Or.inl rfl)⟩

/-- Commit map for the C1 scenario: commit `aaaaaaaaaa` (epoch 100) is the
sole parent of merge commit `mmmmmmmmmm` (epoch 200); both lie inside the
cycle window `[1, 1000]`. -/
def c1_commits : List (String × CommitRecord) :=
  [("aaaaaaaaaa",
    ⟨"ca", "1970-01-01T00:01:40 ", 100, [], false, 0, 0, 0, 0, []⟩),
   ("mmmmmmmmmm",
    ⟨"cm", "1970-01-01T00:03:20 ", 200, ["aaaaaaaaaa"], false, 0, 0, 0, 0,
      []⟩)]

/-- Pull request merged via commit `mmmmmmmmmm`, so the resolver consumes
parent `aaaaaaaaaa`. -/
def c1_pr : PullRequest :=
  ⟨1, some "1970-01-01T00:03:00Z", "u", some "mmmmmmmmmm"⟩

/-- Claim C1 (code bug, evaluated at the failing input): the commit stream
is processed before the pull-request loop, so `commits_preprocessed` is
still empty when the standalone-commit check runs; commit `aaaaaaaaaa`,
although consumed by pull request 1's one-parent merge resolution, STILL
appears as a standalone `Commit-aaaaaaa` entry next to the re-attributed
`Issue-1` "Committed" entry — the dedup check in the code is dead. -/
theorem consumed_commit_still_emitted :
    generate_event_logs_for_evolution_cycle ⟨1, 1000, 0, 0⟩ [] [] [] [c1_pr]
        c1_commits =
      .ok [⟨"Commit-aaaaaaa", "Committed", some "1970-01-01T00:01:40 ",
          some "ca"⟩,
        ⟨"Issue-1", "Committed", some "1970-01-01T00:01:40 ", some "u"⟩,
        ⟨"Issue-1", "Pull Request Opened", some "1970-01-01T00:03:00Z",
          some "u"⟩,
        ⟨"Commit-mmmmmmm", "Committed", some "1970-01-01T00:03:20 ",
          some "cm"⟩] ∧
      (⟨"Commit-aaaaaaa", "Committed", some "1970-01-01T00:01:40 ",
          some "ca"⟩ : EventLogEntry) ∈
        [⟨"Commit-aaaaaaa", "Committed", some "1970-01-01T00:01:40 ",
          some "ca"⟩,
        (⟨"Issue-1", "Committed", some "1970-01-01T00:01:40 ", some "u"⟩ :
          EventLogEntry),
        ⟨"Issue-1", "Pull Request Opened", some "1970-01-01T00:03:00Z",
          some "u"⟩,
        ⟨"Commit-mmmmmmm", "Committed", some "1970-01-01T00:03:20 ",
          some "cm"⟩] ∧
      (⟨"Issue-1", "Committed", some "1970-01-01T00:01:40 ", some "u"⟩ :
          EventLogEntry) ∈
        [⟨"Commit-aaaaaaa", "Committed", some "1970-01-01T00:01:40 ",
          some "ca"⟩,
        (⟨"Issue-1", "Committed", some "1970-01-01T00:01:40 ", some "u"⟩ :
          EventLogEntry),
        ⟨"Issue-1", "Pull Request Opened", some "1970-01-01T00:03:00Z",
          some "u"⟩,
        ⟨"Commit-mmmmmmm", "Committed", some "1970-01-01T00:03:20 ",
          some "cm"⟩] :=
  ⟨rfl, List.Mem.head _, List.Mem.tail _ (List.Mem.head _)⟩

/-- Claim C4 (code bug, evaluated at the failing inputs): a two-parent merge
whose first parent hash `xxxx` is absent from the timeline makes
`commits_hashes.index` raise an uncaught `ValueError` that aborts the whole
synthesis call, and a one-parent merge whose parent `zzzz` is absent from
the commit map raises an uncaught `KeyError` likewise — neither is skipped. -/
theorem absent_parent_aborts_call :
    (generate_event_logs_for_evolution_cycle ⟨1, 1000, 0, 0⟩ [] [] []
        [⟨2, some "1970-01-01T00:03:00Z", "u", some "mmmmmmmmmm"⟩]
        [("aaaaaaaaaa",
          ⟨"ca", "1970-01-01T00:01:40 ", 100, [], false, 0, 0, 0, 0, []⟩),
         ("mmmmmmmmmm",
          ⟨"cm", "1970-01-01T00:03:20 ", 200, ["xxxx", "aaaaaaaaaa"], false,
            0, 0, 0, 0, []⟩)] =
      .error (.valueError "xxxx is not in list")) ∧
    (generate_event_logs_for_evolution_cycle ⟨1, 1000, 0, 0⟩ [] [] []
        [⟨3, some "1970-01-01T00:03:00Z", "u", some "mmmmmmmmmm"⟩]
        [("mmmmmmmmmm",
          ⟨"cm", "1970-01-01T00:03:20 ", 200, ["zzzz"], false, 0, 0, 0, 0,
            []⟩)] =
      .error (.keyError "zzzz")) :=
  ⟨rfl, rfl⟩

/-- Commit map for the C5 counterexample: both commits lie outside the
cycle window `[100, 200]` (epochs 300 and 310); `aaaaaaaaaa` is the sole
parent of merge commit `mmmmmmmmmm`. -/
def c5_commits : List (String × CommitRecord) :=
  [("aaaaaaaaaa",
    ⟨"ca", "1970-01-01T00:05:00 ", 300, [], false, 0, 0, 0, 0, []⟩),
   ("mmmmmmmmmm",
    ⟨"cm", "1970-01-01T00:05:10 ", 310, ["aaaaaaaaaa"], false, 0, 0, 0, 0,
      []⟩)]

/-- Pull request opened inside the window (epoch 150) and merged via commit
`mmmmmmmmmm`. -/
def c5_pr : PullRequest :=
  ⟨1, some "1970-01-01T00:02:30Z", "u", some "mmmmmmmmmm"⟩

/-- Claim C5 (counterexample): the synthesizer emits a "Committed" entry
re-attributing commit `aaaaaaaaaa` to pull request 1 although that commit's
committer epoch 300 lies outside the cycle window `[100, 200]` — the
pull-request resolution path performs no window check on the attributed
commits' timestamps. -/
theorem window_filter_refuted :
    generate_event_logs_for_evolution_cycle ⟨100, 200, 0, 0⟩ [] [] [] [c5_pr]
        c5_commits =
      .ok [⟨"Issue-1", "Pull Request Opened", some "1970-01-01T00:02:30Z",
          some "u"⟩,
        ⟨"Issue-1", "Committed", some "1970-01-01T00:05:00 ", some "u"⟩] ∧
      (⟨"Issue-1", "Committed", some "1970-01-01T00:05:00 ", some "u"⟩ :
          EventLogEntry) ∈
        [(⟨"Issue-1", "Pull Request Opened", some "1970-01-01T00:02:30Z",
          some "u"⟩ : EventLogEntry),
        ⟨"Issue-1", "Committed", some "1970-01-01T00:05:00 ", some "u"⟩] ∧
      c5_commits.lookup "aaaaaaaaaa" =
        some ⟨"ca", "1970-01-01T00:05:00 ", 300, [], false, 0, 0, 0, 0, []⟩ ∧
      (⟨"Issue-1", "Committed", some "1970-01-01T00:05:00 ", some "u"⟩ :
          EventLogEntry).timestamp =
        some (⟨"ca", "1970-01-01T00:05:00 ", 300, [], false, 0, 0, 0, 0,
          []⟩ : CommitRecord).committer_date ∧
      ¬((100 : Int) ≤
          (⟨"ca", "1970-01-01T00:05:00 ", 300, [], false, 0, 0, 0, 0,
            []⟩ : CommitRecord).committer_epoch ∧
        (⟨"ca", "1970-01-01T00:05:00 ", 300, [], false, 0, 0, 0, 0,
          []⟩ : CommitRecord).committer_epoch ≤ (200 : Int)) :=
  ⟨rfl, List.Mem.tail _ (List.Mem.head _), rfl, rfl, by decide⟩

/-- A minimal commit record with the given committer epoch and net rule
additions, as fed to the segmenter. -/
def mkSegCommit (ep ra : Int) : CommitRecord :=
  ⟨"", "", ep, [], false, ra, 0, 0, 0, []⟩

/-- Claim C10 (confirmed): when the segmenter closes a cycle it raises its
fatal `ValueError` whenever a boundary marker's committer epoch equals `0`
(a present, valid Unix epoch), because `if begin_epoch and end_epoch` tests
integer truthiness rather than presence: a begin marker at epoch `0`
(first conjunct) or an end marker at epoch `0` after a begin at `-1`
(second conjunct) both abort, for every closing commit with a non-zero net
rule delta. -/
theorem zero_epoch_boundary_fatal (e2 ra : Int) (he2 : 0 < e2)
    (hra : ra ≠ 0) :
    (extend_repo_info_for_snakemake
        [("a", mkSegCommit 0 0), ("b", mkSegCommit e2 ra)] =
      .error (.valueError "Invalid epoch values for cycle begin and end.")) ∧
    (extend_repo_info_for_snakemake
        [("a", mkSegCommit (-1) 0), ("b", mkSegCommit 0 ra)] =
      .error (.valueError "Invalid epoch values for cycle begin and end.")) := by
  have h0 : (0 : Int) ≤ e2 := le_of_lt he2
  constructor
  · unfold extend_repo_info_for_snakemake
    have hsort : sortedCommitHashes
        [("a", mkSegCommit 0 0), ("b", mkSegCommit e2 ra)] = ["a", "b"] := by
      simp [sortedCommitHashes, List.insertionSort, List.orderedInsert,
        epochOf, getCommit, List.lookup, mkSegCommit, h0]
    rw [hsort]
    simp [segStep, segInit, getCommit, List.lookup, mkSegCommit,
      addedOrRemovedInt, pyOrInt, hra]
  · unfold extend_repo_info_for_snakemake
    have hsort : sortedCommitHashes
        [("a", mkSegCommit (-1) 0), ("b", mkSegCommit 0 ra)] =
        ["a", "b"] := by
      simp [sortedCommitHashes, List.insertionSort, List.orderedInsert,
        epochOf, getCommit, List.lookup, mkSegCommit]
    rw [hsort]
    simp [segStep, segInit, getCommit, List.lookup, mkSegCommit,
      addedOrRemovedInt, pyOrInt, hra]

/-- Witness for `zero_epoch_boundary_fatal` at `e2 = 90000`, `ra = 1`. -/
theorem zero_epoch_boundary_fatal_witness :
    (0 : Int) < 90000 ∧ (1 : Int) ≠ 0 ∧
      (extend_repo_info_for_snakemake
          [("a", mkSegCommit 0 0), ("b", mkSegCommit 90000 1)] =
        .error
          (.valueError "Invalid epoch values for cycle begin and end.")) ∧
      (extend_repo_info_for_snakemake
          [("a", mkSegCommit (-1) 0), ("b", mkSegCommit 0 1)] =
        .error
          (.valueError "Invalid epoch values for cycle begin and end.")) :=
  ⟨by decide, by decide,
    (zero_epoch_boundary_fatal 90000 1 (by decide) (by decide)).1,
    (zero_epoch_boundary_fatal 90000 1 (by decide) (by decide)).2⟩

/-- An entry drawn from a window-guarded singleton produced by
`strftime("%Y-%m-%dT%H:%M:%SZ")` has an in-window timestamp. -/
theorem mem_window_entry {lo hi : Int} {d : DateTime} {cid act : String}
    {u : Option String} {e : EventLogEntry}
    (he : e ∈ (if lo ≤ toEpoch d ∧ toEpoch d ≤ hi then
      [⟨cid, act, some (formatDateZ d), u⟩]
      else ([] : List EventLogEntry))) :
    TimestampInWindow lo hi e.timestamp := by
  split at he
  · rename_i hw
    simp only [List.mem_singleton] at he
    subst he
    exact Or.inl ⟨d, hw.1, hw.2, rfl⟩
  · cases he

/-- Every entry the issue stream emits carries an in-window timestamp. -/
theorem process_issue_in_window {lo hi : Int} {iss : Issue}
    {es : List EventLogEntry} (h : process_issue lo hi iss = .ok es) :
    ∀ e ∈ es, TimestampInWindow lo hi e.timestamp := by
  unfold process_issue at h
  split at h
  · cases h
  · cases h
    intro e he
    cases he
  · rename_i created
    dsimp only at h
    split at h
    · -- the closed-timestamp step raised
      cases h
    · -- the dead skip branch
      cases h
      intro e he
      cases he
    · -- the record is processed; `closedCase` is `none` or `some (some c)`
      rename_i closedCase hguard heq
      cases h
      intro e he
      rcases List.mem_append.mp he with h1 | h1
      · exact mem_window_entry h1
      · rcases closedCase with - | copt
        · cases h1
        · rcases copt with - | c
          · cases h1
          · exact mem_window_entry h1

/-- Issue-stream lists only contain in-window entries. -/
theorem process_issues_in_window {lo hi : Int} {l : List Issue}
    {es : List EventLogEntry} (h : process_issues lo hi l = .ok es) :
    ∀ e ∈ es, TimestampInWindow lo hi e.timestamp := by
  induction l generalizing es with
  | nil =>
    cases h
    intro e he
    cases he
  | cons i rest ih =>
    unfold process_issues at h
    split at h
    · cases h
    · rename_i es1 h1
      split at h
      · cases h
      · rename_i es2 h2
        cases h
        intro e he
        rcases List.mem_append.mp he with hm | hm
        · exact process_issue_in_window h1 e hm
        · exact ih h2 e hm

/-- Every entry the comment stream emits carries an in-window timestamp. -/
theorem process_comment_in_window {lo hi : Int} {c : Comment}
    {es : List EventLogEntry} (h : process_comment lo hi c = .ok es) :
    ∀ e ∈ es, TimestampInWindow lo hi e.timestamp := by
  unfold process_comment at h
  split at h
  · cases h
  · cases h
    intro e he
    cases he
  · rename_i created hparse
    dsimp only at h
    split at h
    · rename_i hw
      cases h
      intro e he
      simp only [List.mem_singleton] at he
      subst he
      exact Or.inl ⟨created, hw.1, hw.2, rfl⟩
    · cases h
      intro e he
      cases he

/-- Comment-stream lists only contain in-window entries. -/
theorem process_comments_in_window {lo hi : Int} {l : List Comment}
    {es : List EventLogEntry} (h : process_comments lo hi l = .ok es) :
    ∀ e ∈ es, TimestampInWindow lo hi e.timestamp := by
  induction l generalizing es with
  | nil =>
    cases h
    intro e he
    cases he
  | cons c rest ih =>
    unfold process_comments at h
    split at h
    · cases h
    · rename_i es1 h1
      split at h
      · cases h
      · rename_i es2 h2
        cases h
        intro e he
        rcases List.mem_append.mp he with hm | hm
        · exact process_comment_in_window h1 e hm
        · exact ih h2 e hm

/-- Every entry the event stream emits carries an in-window timestamp. -/
theorem process_event_in_window {lo hi : Int} {ev : GhEvent}
    {es : List EventLogEntry} (h : process_event lo hi ev = .ok es) :
    ∀ e ∈ es, TimestampInWindow lo hi e.timestamp := by
  unfold process_event at h
  split at h
  · cases h
  · cases h
    intro e he
    cases he
  · rename_i created hparse
    dsimp only at h
    split at h
    · rename_i hw
      cases h
      intro e he
      simp only [List.mem_singleton] at he
      subst he
      exact Or.inl ⟨created, hw.1, hw.2, rfl⟩
    · cases h
      intro e he
      cases he

/-- Event-stream lists only contain in-window entries. -/
theorem process_events_in_window {lo hi : Int} {l : List GhEvent}
    {es : List EventLogEntry} (h : process_events lo hi l = .ok es) :
    ∀ e ∈ es, TimestampInWindow lo hi e.timestamp := by
  induction l generalizing es with
  | nil =>
    cases h
    intro e he
    cases he
  | cons ev rest ih =>
    unfold process_events at h
    split at h
    · cases h
    · rename_i es1 h1
      split at h
      · cases h
      · rename_i es2 h2
        cases h
        intro e he
        rcases List.mem_append.mp he with hm | hm
        · exact process_event_in_window h1 e hm
        · exact ih h2 e hm

/-- Every entry the commit stream emits carries an in-window timestamp. -/
theorem commits_loop_in_window (ci : CycleInfo)
    (cs : List (String × CommitRecord)) (pre : List String)
    (l : List String) :
    ∀ e ∈ (commits_loop ci cs pre l).1,
      TimestampInWindow ci.begin_epoch ci.end_epoch e.timestamp := by
  induction l with
  | nil =>
    intro e he
    cases he
  | cons h rest ih =>
    intro e he
    unfold commits_loop at he
    split at he
    · exact ih e he
    · rcases List.mem_append.mp he with h1 | h2
      · split at h1
        · rename_i hw
          simp only [List.mem_singleton] at h1
          subst h1
          exact Or.inr ⟨(getCommit cs h).committer_epoch, hw.1, hw.2, rfl⟩
        · cases h1
      · exact ih e h2

/-- Entries emitted for one pull request either carry an in-window
timestamp (the "Pull Request Opened" entry) or are merge-resolution
"Committed" entries correlated to the pull request's `Issue-` case id,
which are not window-checked. -/
theorem process_pr_in_window {ci : CycleInfo}
    {cs : List (String × CommitRecord)} {cp : List (String × List String)}
    {hashes : List String} {pr : PullRequest} {es : List EventLogEntry}
    {preOut : List String} (h : process_pr ci cs cp hashes pr = .ok (es, preOut)) :
    ∀ e ∈ es, TimestampInWindow ci.begin_epoch ci.end_epoch e.timestamp ∨
      (e.activity = "Committed" ∧ ∃ s, e.case_id = "Issue-" ++ s) := by
  unfold process_pr at h
  split at h
  · cases h
  · cases h
    intro e he
    cases he
  · rename_i created hparse
    dsimp only at h
    split at h
    · cases h
      intro e he
      exact Or.inl (mem_window_entry he)
    · split at h
      · cases h
        intro e he
        exact Or.inl (mem_window_entry he)
      · split at h
        · cases h
          intro e he
          exact Or.inl (mem_window_entry he)
        · split at h
          · split at h
            · cases h
            · rename_i c0 hc0
              cases h
              intro e he
              rcases List.mem_append.mp he with h1 | h1
              · exact Or.inl (mem_window_entry h1)
              · simp only [List.mem_singleton] at h1
                subst h1
                exact Or.inr ⟨rfl, toString pr.number, rfl⟩
          · split at h
            · cases h
            · split at h
              · cases h
              · cases h
                intro e he
                rcases List.mem_append.mp he with h1 | h1
                · exact Or.inl (mem_window_entry h1)
                · rcases List.mem_map.mp h1 with ⟨p, hp, rfl⟩
                  exact Or.inr ⟨rfl, toString pr.number, rfl⟩
          · cases h
            intro e he
            exact Or.inl (mem_window_entry he)

/-- Pull-request-stream lists: each entry is in-window or a re-attributed
"Committed" entry. -/
theorem process_prs_in_window {ci : CycleInfo}
    {cs : List (String × CommitRecord)} {cp : List (String × List String)}
    {hashes : List String} {l : List PullRequest} {es : List EventLogEntry}
    {preOut : List String}
    (h : process_prs ci cs cp hashes l = .ok (es, preOut)) :
    ∀ e ∈ es, TimestampInWindow ci.begin_epoch ci.end_epoch e.timestamp ∨
      (e.activity = "Committed" ∧ ∃ s, e.case_id = "Issue-" ++ s) := by
  induction l generalizing es preOut with
  | nil =>
    cases h
    intro e he
    cases he
  | cons pr rest ih =>
    unfold process_prs at h
    split at h
    · cases h
    · rename_i es1 pre1 h1
      split at h
      · cases h
      · rename_i es2 pre2 h2
        cases h
        intro e he
        rcases List.mem_append.mp he with hm | hm
        · exact process_pr_in_window h1 e hm
        · exact ih h2 e hm

/-- Claim C5 (amended): every entry of a synthesized log either has a
timestamp produced from a record whose relevant epoch lies in the cycle
window `[begin_epoch, end_epoch]`, or is one of the "Committed" entries
correlated to an `Issue-` case id by the pull-request merge resolution,
which the code emits without any window check on the attributed commit's
timestamp (the counterexample `window_filter_refuted` shows the latter can
fall outside the window). -/
theorem event_log_window_amended (ci : CycleInfo) (issues : List Issue)
    (comments : List Comment) (events : List GhEvent)
    (pullrequests : List PullRequest) (commits : List (String × CommitRecord))
    (L : List EventLogEntry)
    (h : generate_event_logs_for_evolution_cycle ci issues comments events
      pullrequests commits = .ok L) :
    ∀ e ∈ L, TimestampInWindow ci.begin_epoch ci.end_epoch e.timestamp ∨
      (e.activity = "Committed" ∧ ∃ s, e.case_id = "Issue-" ++ s) := by
  unfold generate_event_logs_for_evolution_cycle at h
  split at h
  · cases h
  · rename_i e1 h1
    split at h
    · cases h
    · rename_i e2 h2
      split at h
      · cases h
      · rename_i e3 h3
        split at h
        rename_i e4 cp ch h4
        split at h
        · cases h
        · rename_i e5 pre5 h5
          intro e he
          have hin := final_sort_perm h e he
          rcases List.mem_append.mp hin with hA | hB
          · rcases List.mem_append.mp hA with hC | hD
            · rcases List.mem_append.mp hC with hE | hF
              · rcases List.mem_append.mp hE with hG | hH
                · exact Or.inl (process_issues_in_window h1 e hG)
                · exact Or.inl (process_comments_in_window h2 e hH)
              · exact Or.inl (process_events_in_window h3 e hF)
            · have hcl := commits_loop_in_window ci commits []
                (sortedCommitHashes commits)
              rw [h4] at hcl
              exact Or.inl (hcl e hD)
          · exact process_prs_in_window h5 e hB

/-- Witness for `event_log_window_amended` at a one-commit input. -/
theorem event_log_window_amended_witness :
    (generate_event_logs_for_evolution_cycle ⟨1, 1000, 0, 0⟩ [] [] [] []
        [("aa", ⟨"c1", "y", 100, [], false, 0, 0, 0, 0, []⟩)] =
      .ok [⟨"Commit-aa", "Committed", epoch_to_str 100, some "c1"⟩]) ∧
      ∀ e ∈ ([⟨"Commit-aa", "Committed", epoch_to_str 100, some "c1"⟩] :
          List EventLogEntry),
        TimestampInWindow 1 1000 e.timestamp ∨
          (e.activity = "Committed" ∧ ∃ s, e.case_id = "Issue-" ++ s) :=
  ⟨rfl, event_log_window_amended ⟨1, 1000, 0, 0⟩ [] [] [] []
    [("aa", ⟨"c1", "y", 100, [], false, 0, 0, 0, 0, []⟩)]
    [⟨"Commit-aa", "Committed", epoch_to_str 100, some "c1"⟩] rfl⟩
